import Mathlib

/-!
Verification development for the voice search assistant repository
(`app.py`, `app2.py`, `search_vector.py`, `ai_search/`).

The Python functions are shallowly embedded as Lean definitions:

* Strings are `List Char` internally (`String` at the top level); Python's
  `str.lower` is modelled per character with `Char.toLower`, `str.split()`
  as splitting on whitespace runs, and `str.find(sub, start)` as the least
  index at or past `start` where `sub` occurs.
* Session state (`st.session_state`) is an explicit `SessionState` record.
* External effects are explicit: the OpenAI / Pinecone calls are passed in
  as `Except` values (success payload or raised exception), the filesystem
  of temporary files is a `List String` threaded through, and user-visible
  output (`st.toast`, `st.error`) and outbound service calls are collected
  in an `Event` trace.
* Audio samples are `List ℤ` (the buffer is int16) and the samples written
  by `soundfile.write` are `List ℚ` (exact arithmetic in place of floats).
-/

namespace VoiceRag

/-- Characterwise lowering, modelling Python `str.lower()`. -/
def toLowerL (l : List Char) : List Char := l.map Char.toLower

/-- `isPre n l` is true when `n` is an initial segment of `l`. -/
def isPre : List Char → List Char → Bool
  | [], _ => true
  | _ :: _, [] => false
  | a :: an, b :: bn => a == b && isPre an bn

/-- Least index at which `needle` occurs in `hay`, modelling `str.find`
(minus the lowering, which callers apply). -/
def firstMatch (needle : List Char) : List Char → Option Nat
  | [] => if needle = [] then some 0 else none
  | c :: rest => if isPre needle (c :: rest) then some 0
                 else (firstMatch needle rest).map (· + 1)

/-- `str.find(sub, start)`: least index at or past `start` where `sub`
occurs in `hay`. -/
def findFrom (hay needle : List Char) (start : Nat) : Option Nat :=
  (firstMatch needle (hay.drop start)).map (start + ·)

/-- Accumulator for `splitWs`. -/
def splitWsAux : List Char → List Char → List (List Char)
  | [], acc => if acc = [] then [] else [acc.reverse]
  | c :: rest, acc =>
    if c.isWhitespace then
      if acc = [] then splitWsAux rest [] else acc.reverse :: splitWsAux rest []
    else splitWsAux rest (c :: acc)

/-- Python `str.split()` with no separator: split on whitespace runs,
dropping empty pieces. -/
def splitWs (l : List Char) : List (List Char) := splitWsAux l []

/-- The literal opening marker inserted by `highlight_query_terms`. -/
def openTag : List Char := ("<span class=\"highlight\">").toList

/-- The literal closing marker inserted by `highlight_query_terms`. -/
def closeTag : List Char := ("</span>").toList

/-- The inner `while idx != -1` loop of `highlight_query_terms`
(app.py lines 192-196, app2.py lines 169-174), embedded with explicit
fuel: each iteration finds `term` case-insensitively at or past `start`,
wraps the matched original characters with the markers, and resumes
searching just past the inserted markup. `none` means the fuel ran out. -/
def highlightLoop (term : List Char) (text : List Char) (start : Nat) : Nat → Option (List Char)
  | 0 => none
  | fuel + 1 =>
    match findFrom (toLowerL text) (toLowerL term) start with
    | none => some text
    | some idx =>
      let original := (text.drop idx).take term.length
      let marker := openTag ++ original ++ closeTag
      highlightLoop term (text.take idx ++ marker ++ text.drop (idx + term.length))
        (idx + marker.length) fuel

/-- The `for term in query_terms` loop of `highlight_query_terms`: terms of
length at most 2 are skipped, the rest are processed by `highlightLoop` on
the current (already marked-up) text. -/
def goTerms : List (List Char) → List Char → Option (List Char)
  | [], text => some text
  | term :: rest, text =>
    if 2 < term.length then
      match highlightLoop term text 0 (text.length + 1) with
      | none => none
      | some text' => goTerms rest text'
    else goTerms rest text

/-- `highlight_query_terms(text, query)` (app.py lines 186-197, app2.py
lines 161-175): empty query or empty text is returned unchanged; otherwise
the query is lowered and split into whitespace-separated terms, and each
term longer than two characters is highlighted in turn. -/
def highlight_query_terms (text query : String) : Option String :=
  if query = "" ∨ text = "" then some text
  else Option.map String.mk (goTerms (splitWs (toLowerL query.toList)) text.toList)

/-- Modelled from the spec: a single left-to-right pass that wraps the
first occurrence of `term`, emits the markup, and continues scanning only
the untouched remainder of the original text (never re-entering inserted
markup). Fueled helper for `wrapAllSpec`. -/
def wrapAllSpecF (term : List Char) : Nat → List Char → List Char
  | 0, text => text
  | fuel + 1, text =>
    match firstMatch (toLowerL term) (toLowerL text) with
    | none => text
    | some i =>
      text.take i ++ openTag ++ (text.drop i).take term.length ++ closeTag ++
        wrapAllSpecF term fuel (text.drop (i + term.length))

/-- Modelled from the spec: wrap the case-insensitive occurrences of
`term` in `text` in one left-to-right scan of the original text. -/
def wrapAllSpec (term text : List Char) : List Char :=
  wrapAllSpecF term text.length text

/-- Specification-level counterpart of `highlight_query_terms`: the same
guard and term splitting, with each qualifying term processed by the
clean single-scan `wrapAllSpec`. -/
def specHighlight (text query : String) : String :=
  if query = "" ∨ text = "" then text
  else String.mk ((splitWs (toLowerL query.toList)).foldl
    (fun txt t => if 2 < t.length then wrapAllSpec t txt else txt) text.toList)

/-- Number of indices of `hay` at which `needle` occurs. -/
def countOccur (needle : List Char) : List Char → Nat
  | [] => if isPre needle [] then 1 else 0
  | c :: rest => (if isPre needle (c :: rest) then 1 else 0) + countOccur needle rest

/-- A search hit as returned by the Pinecone index: identifier, relevance
score, and the stored text snippet. -/
structure Hit where
  hitId : String
  score : ℚ
  chunkText : String
deriving DecidableEq

/-- Observable effects of the embedded code: user-visible toasts and error
messages (`st.toast` / `st.error`) and outbound calls to the external
search service (`dense_index.search` with its query text and `top_k`). -/
inductive Event where
  | toast (msg : String)
  | errorMsg (msg : String)
  | searchCall (query : String) (k : Nat)
deriving DecidableEq

/-- The `st.session_state` fields initialised by the `defaults` dictionary
(app.py lines 34-35, app2.py `init_session_state`). -/
structure SessionState where
  audio_data : Option (List ℤ)
  recording : Bool
  transcript : String
  processing : Bool
  search_results : Option (List Hit)
  toast_shown : Bool
  record_duration : Nat
  top_k : Nat
deriving DecidableEq

/-- `np.abs` on a single int16 sample: absolute value, except that the
int16 minimum wraps to itself (`np.abs(-32768) = -32768` in the source's
two's-complement arithmetic). -/
def wrapAbs16 (x : ℤ) : ℤ := if x = -32768 then x else |x|

/-- `np.max(np.abs(audio))`: the maximum of the wrapped absolute samples
(0 for an empty buffer, on which `np.max` would raise and which
`sounddevice.rec` never produces). No floor at 0: an all-negative wrapped
array has a negative maximum, exactly as `np.max` computes it. -/
def maxAbs : List ℤ → ℤ
  | [] => 0
  | [x] => wrapAbs16 x
  | x :: y :: rest => max (wrapAbs16 x) (maxAbs (y :: rest))

/-- The samples `save_audio` hands to `sf.write`: divided by the peak and
scaled by 0.9 when the buffer is not silent, unchanged (cast to the float
samples the writer receives) when it is (app.py lines 107-108). -/
def save_audio_data (audio : List ℤ) : List ℚ :=
  if 0 < maxAbs audio then
    audio.map (fun x : ℤ => (x : ℚ) / ((maxAbs audio : ℤ) : ℚ) * (9 / 10))
  else audio.map (fun x : ℤ => (x : ℚ))

/-- `save_audio` (app.py lines 104-110): create a fresh uniquely named
temporary file, normalize the buffer, write it. Returns the file name, the
filesystem with the new file, and the written samples. -/
def save_audio (fs : List String) (tempName : String) (audio : List ℤ) :
    String × List String × List ℚ :=
  (tempName, if tempName ∈ fs then fs else tempName :: fs, save_audio_data audio)

/-- `transcribe_audio` (app.py lines 113-121): open the file and call the
Whisper endpoint inside `try`; on success `os.unlink` the file and return
the text, on any exception show the error and return `None`. The external
call's outcome is the `extT` parameter; a missing file makes the `open`
raise, which lands in the same `except` branch. -/
def transcribe_audio (fs : List String) (file_path : String)
    (extT : Except String String) : Option String × List String × List Event :=
  if file_path ∈ fs then
    match extT with
    | Except.ok t => (some t, fs.erase file_path, [])
    | Except.error e => (none, fs, [Event.errorMsg ("Transcription error: " ++ e)])
  else (none, fs, [Event.errorMsg ("Transcription error: file not found")])

/-- `ai_search` (app.py lines 167-173): one call to
`dense_index.search(namespace, {top_k, inputs.text})`; return the hits
list verbatim on success, and on any exception show the error and return
the empty list. -/
def ai_search (extS : Except String (List Hit)) (query : String) (top_k : Nat) :
    List Hit × List Event :=
  match extS with
  | Except.ok hits => (hits, [Event.searchCall query top_k])
  | Except.error e =>
    ([], [Event.searchCall query top_k, Event.errorMsg ("Search error: " ++ e)])

/-- `perform_search` (app.py lines 176-183): run `ai_search` with the
session's `top_k`, store the result list in `search_results`, and toast a
found-count or a no-results message depending on truthiness of the list. -/
def perform_search (extS : Except String (List Hit)) (query : String)
    (s : SessionState) : SessionState × List Event :=
  let res := ai_search extS query s.top_k
  let s' := { s with search_results := some res.1 }
  if res.1 = [] then
    (s', res.2 ++ [Event.toast ("No results found. Try a different query.")])
  else
    (s', res.2 ++ [Event.toast ("Found " ++ toString res.1.length ++ " results")])

/-- `process_audio` (app.py lines 140-164): when audio is present, save it,
transcribe it, and branch on Python truthiness of the result: a non-empty
transcript is stored, toasted once, and searched; `None` or an empty
string lands in the failure branch with the failed-to-transcribe error.
`processing` is set for the duration. -/
def process_audio (extT : Except String String) (extS : Except String (List Hit))
    (tempName : String) (fs : List String) (s : SessionState) :
    SessionState × List String × List Event :=
  match s.audio_data with
  | none => (s, fs, [])
  | some _ =>
    let s1 := { s with processing := true }
    let saved := save_audio fs tempName (s.audio_data.getD [])
    let tr := transcribe_audio saved.2.1 saved.1 extT
    match tr.1 with
    | some t =>
      if t = "" then
        ({ s1 with processing := false }, tr.2.1,
          tr.2.2 ++ [Event.errorMsg ("Failed to transcribe audio. Please try again.")])
      else
        let s2 := { s1 with transcript := t }
        let toastEvs : List Event :=
          if s2.toast_shown then [] else [Event.toast ("Transcription complete!")]
        let s3 := if s2.toast_shown then s2 else { s2 with toast_shown := true }
        let ps := perform_search extS t s3
        ({ ps.1 with processing := false }, tr.2.1, tr.2.2 ++ toastEvs ++ ps.2)
    | none =>
      ({ s1 with processing := false }, tr.2.1,
        tr.2.2 ++ [Event.errorMsg ("Failed to transcribe audio. Please try again.")])

/-- `record_audio` (app.py lines 124-131): store the freshly started
capture buffer and reset the recording flag, transcript, results and toast
flag; settings are untouched. -/
def record_audio (buf : List ℤ) (s : SessionState) : SessionState :=
  { s with
    audio_data := some buf
    recording := true
    transcript := ""
    search_results := none
    toast_shown := false }

/-- The top-K slider handler (app.py lines 337-342, app2.py lines
339-344): when the slider value differs from the stored one, store it,
toast, and — only when a transcript is present — re-run `perform_search`
on the stored transcript. -/
def top_k_slider_update (extS : Except String (List Hit)) (newK : Nat)
    (s : SessionState) : SessionState × List Event :=
  if newK ≠ s.top_k then
    let s1 := { s with top_k := newK }
    if s1.transcript ≠ "" then
      let ps := perform_search extS s1.transcript s1
      (ps.1, Event.toast ("Top results set to " ++ toString newK) :: ps.2)
    else (s1, [Event.toast ("Top results set to " ++ toString newK)])
  else (s, [])

/-- A concrete session state used by witnesses and counterexamples:
the defaults after `record_audio` filled a one-sample buffer. -/
def sampleState : SessionState :=
  { audio_data := some [1]
    recording := false
    transcript := ""
    processing := false
    search_results := none
    toast_shown := false
    record_duration := 15
    top_k := 10 }

/-! ## Helper lemmas for the highlight development -/

theorem toLowerL_length (l : List Char) : (toLowerL l).length = l.length := by
  simp [toLowerL]

theorem toLowerL_append (a b : List Char) :
    toLowerL (a ++ b) = toLowerL a ++ toLowerL b := by
  simp [toLowerL]

theorem isPre_length {n l : List Char} (h : isPre n l = true) :
    n.length ≤ l.length := by
  induction n generalizing l with
  | nil => simp
  | cons a an ih =>
    cases l with
    | nil => simp [isPre] at h
    | cons b bn =>
      simp only [isPre, Bool.and_eq_true] at h
      simpa using Nat.succ_le_succ (ih h.2)

theorem firstMatch_bound {n l : List Char} {i : Nat}
    (h : firstMatch n l = some i) : i + n.length ≤ l.length := by
  induction l generalizing i with
  | nil =>
    by_cases hn : n = []
    · simp [firstMatch, hn] at h
      simp [hn, ← h]
    · simp [firstMatch, hn] at h
  | cons c rest ih =>
    simp only [firstMatch] at h
    by_cases hp : isPre n (c :: rest) = true
    · rw [if_pos hp] at h
      injection h with h0
      have hle := isPre_length hp
      rw [List.length_cons] at hle ⊢
      omega
    · rw [if_neg hp] at h
      simp only [Option.map_eq_some'] at h
      obtain ⟨j, hj, hij⟩ := h
      have := ih hj
      rw [List.length_cons]
      omega

theorem firstMatch_nil {n : List Char} (hn : n ≠ []) : firstMatch n [] = none := by
  simp [firstMatch, hn]

theorem take_len_add (a b : List Char) (m : Nat) :
    (a ++ b).take (a.length + m) = a ++ b.take m := by
  induction a with
  | nil => simp
  | cons x xs ih => simpa [List.length_cons, Nat.succ_add] using ih

theorem drop_len_add (a b : List Char) (m : Nat) :
    (a ++ b).drop (a.length + m) = b.drop m := by
  induction a with
  | nil => simp
  | cons x xs ih => simp [List.length_cons, Nat.succ_add, ih]

theorem wrapAllSpecF_none {term r : List Char}
    (h : firstMatch (toLowerL term) (toLowerL r) = none) (fuel : Nat) :
    wrapAllSpecF term fuel r = r := by
  cases fuel with
  | zero => rfl
  | succ f => simp [wrapAllSpecF, h]

theorem toLowerL_ne_nil {term : List Char} (h : term ≠ []) :
    toLowerL term ≠ [] := by
  cases term with
  | nil => exact absurd rfl h
  | cons c cs => simp [toLowerL]

theorem wrapAllSpecF_congr {term : List Char} (hterm : term ≠ []) :
    ∀ f₁ f₂ r, r.length ≤ f₁ → r.length ≤ f₂ →
      wrapAllSpecF term f₁ r = wrapAllSpecF term f₂ r := by
  intro f₁
  induction f₁ with
  | zero =>
    intro f₂ r h1 _
    have hr : r = [] := List.eq_nil_of_length_eq_zero (Nat.le_zero.mp h1)
    subst hr
    have hnil : firstMatch (toLowerL term) (toLowerL []) = none := by
      simpa [toLowerL] using firstMatch_nil (toLowerL_ne_nil hterm)
    rw [wrapAllSpecF_none hnil, wrapAllSpecF_none hnil]
  | succ f ih =>
    intro f₂ r h1 h2
    cases hfm : firstMatch (toLowerL term) (toLowerL r) with
    | none => rw [wrapAllSpecF_none hfm, wrapAllSpecF_none hfm]
    | some i =>
      have hb := firstMatch_bound hfm
      rw [toLowerL_length, toLowerL_length] at hb
      have hL : 0 < term.length := List.length_pos.mpr hterm
      cases f₂ with
      | zero => omega
      | succ g =>
        simp only [wrapAllSpecF, hfm]
        have hrec := ih g (r.drop (i + term.length))
          (by simp [List.length_drop]; omega) (by simp [List.length_drop]; omega)
        rw [hrec]

theorem highlightLoop_split {term : List Char} (hterm : term ≠ []) :
    ∀ (fuel : Nat) (p r : List Char), r.length < fuel →
      highlightLoop term (p ++ r) p.length fuel = some (p ++ wrapAllSpec term r) := by
  intro fuel
  induction fuel with
  | zero => intro p r h; omega
  | succ fuel ih =>
    intro p r hlen
    have hf : findFrom (toLowerL (p ++ r)) (toLowerL term) p.length
        = (firstMatch (toLowerL term) (toLowerL r)).map (p.length + ·) := by
      unfold findFrom
      rw [toLowerL_append, List.drop_left' (toLowerL_length p)]
    cases hfm : firstMatch (toLowerL term) (toLowerL r) with
    | none =>
      rw [hfm] at hf
      simp only [highlightLoop, hf, Option.map_none']
      rw [wrapAllSpec, wrapAllSpecF_none hfm]
    | some i =>
      rw [hfm] at hf
      have hb := firstMatch_bound hfm
      rw [toLowerL_length, toLowerL_length] at hb
      have hL : 0 < term.length := List.length_pos.mpr hterm
      have horig : ((p ++ r).drop (p.length + i)).take term.length
          = (r.drop i).take term.length := by rw [drop_len_add]
      have htake : (p ++ r).take (p.length + i) = p ++ r.take i := take_len_add p r i
      have hdrop2 : (p ++ r).drop (p.length + i + term.length)
          = r.drop (i + term.length) := by
        rw [Nat.add_assoc, drop_len_add]
      have horiglen : ((r.drop i).take term.length).length = term.length := by
        simp [List.length_take, List.length_drop]
        omega
      simp only [highlightLoop, hf, Option.map_some']
      rw [horig, htake, hdrop2]
      have hstart : p.length + i + (openTag ++ (r.drop i).take term.length ++ closeTag).length
          = (p ++ r.take i ++ (openTag ++ (r.drop i).take term.length ++ closeTag)).length := by
        simp [List.length_append, List.length_take, horiglen]
        omega
      have htext : p ++ r.take i ++ (openTag ++ (r.drop i).take term.length ++ closeTag)
            ++ r.drop (i + term.length)
          = (p ++ r.take i ++ (openTag ++ (r.drop i).take term.length ++ closeTag))
            ++ r.drop (i + term.length) := by
        simp [List.append_assoc]
      rw [hstart]
      have hr' : (r.drop (i + term.length)).length < fuel := by
        simp [List.length_drop]
        omega
      have hrec := ih (p ++ r.take i ++ (openTag ++ (r.drop i).take term.length ++ closeTag))
        (r.drop (i + term.length)) hr'
      rw [hrec]
      obtain ⟨m, hm⟩ : ∃ m, r.length = m + 1 := ⟨r.length - 1, by omega⟩
      have hcg := wrapAllSpecF_congr hterm m ((r.drop (i + term.length)).length)
        (r.drop (i + term.length)) (by simp [List.length_drop]; omega) (le_refl _)
      have hunfold : wrapAllSpec term r
          = r.take i ++ openTag ++ (r.drop i).take term.length ++ closeTag ++
            wrapAllSpecF term ((r.drop (i + term.length)).length) (r.drop (i + term.length)) := by
        rw [wrapAllSpec, hm]
        simp only [wrapAllSpecF, hfm]
        rw [hcg]
      rw [hunfold, wrapAllSpec]
      simp [List.append_assoc]

theorem goTerms_eq (ts : List (List Char)) (text : List Char) :
    goTerms ts text = some (ts.foldl
      (fun txt t => if 2 < t.length then wrapAllSpec t txt else txt) text) := by
  induction ts generalizing text with
  | nil => rfl
  | cons t rest ih =>
    by_cases h : 2 < t.length
    · have hterm : t ≠ [] := by
        intro hnil
        rw [hnil] at h
        simp at h
      have hl := highlightLoop_split hterm (text.length + 1) [] text (by omega)
      simp only [List.nil_append, List.length_nil] at hl
      simp [goTerms, h, hl, ih]
    · simp [goTerms, h, ih]

theorem foldl_skip (ts : List (List Char)) (text : List Char)
    (h : ∀ t ∈ ts, ¬ 2 < t.length) :
    ts.foldl (fun txt t => if 2 < t.length then wrapAllSpec t txt else txt) text
      = text := by
  induction ts generalizing text with
  | nil => rfl
  | cons t rest ih =>
    have ht : ¬ 2 < t.length := h t (by simp)
    simp only [List.foldl, ht, if_false]
    exact ih text (fun u hu => h u (by simp [hu]))

/-! ## Claims C4, C5, C6: the highlighting function -/

/-- Claim C4, counterexample to the claim as stated: the token aaa has two
case-insensitive occurrences in the snippet aaaa (at indices 0 and 1), yet
the code inserts only one highlight marker, so not every occurrence is
wrapped exactly once: the occurrence at index 1 overlaps the wrapped one
and is skipped. -/
theorem highlight_not_every_occurrence :
    countOccur (toLowerL ("aaa").toList) (toLowerL ("aaaa").toList) = 2 ∧
    highlight_query_terms ("aaaa") ("aaa")
      = some ("<span class=\"highlight\">aaa</span>a") ∧
    countOccur openTag ("<span class=\"highlight\">aaa</span>a").toList = 1 :=
  ⟨by decide, by decide, by decide⟩

/-- Claim C4 (amended): for every snippet text and every query,
`highlight_query_terms` processes each query token longer than two
characters in a left-to-right pass that wraps the leftmost occurrence of
the token at or after the cursor and resumes scanning just past the
inserted marker; this is exactly the single-scan `wrapAllSpec` applied to
each qualifying token in turn (`specHighlight`), so within one token's
pass markers never overlap or nest, but occurrences overlapping an
already-wrapped one are skipped, and a later token is sought in the
already marked-up text, so its markers can land inside earlier markup. -/
theorem highlight_refines_spec (text query : String) :
    highlight_query_terms text query = some (specHighlight text query) := by
  unfold highlight_query_terms specHighlight
  by_cases h : query = "" ∨ text = ""
  · simp [h]
  · simp [h, goTerms_eq]

/-- Claim C5: for every snippet text and every query,
`highlight_query_terms` terminates — the embedded scanning loop, run with
fuel `text.length + 1`, always completes because the cursor is advanced
past each inserted marker, so the function never returns `none`. -/
theorem highlight_terminates (text query : String) :
    (highlight_query_terms text query).isSome = true := by
  unfold highlight_query_terms
  by_cases h : query = "" ∨ text = ""
  · simp [h]
  · simp [h, goTerms_eq]

/-- Claim C6: query tokens of length at most two are never wrapped: when
every token of the query is that short (or the text is empty, or the query
is empty and hence has no tokens), `highlight_query_terms` returns the
text unchanged, and applying it again returns the same result. -/
theorem highlight_short_tokens_identity (text query : String)
    (h : text = "" ∨ ∀ t ∈ splitWs (toLowerL query.toList), t.length ≤ 2) :
    highlight_query_terms text query = some text ∧
    (highlight_query_terms text query).bind
      (fun r => highlight_query_terms r query) = some text := by
  have hmain : highlight_query_terms text query = some text := by
    unfold highlight_query_terms
    by_cases hq : query = "" ∨ text = ""
    · simp [hq]
    · rcases h with h | h
      · exact absurd (Or.inr h) hq
      · have hns : ∀ t ∈ splitWs (toLowerL query.toList), ¬ 2 < t.length := by
          intro t ht
          have := h t ht
          omega
        rw [if_neg hq, goTerms_eq]
        simp only [Option.map_some']
        rw [foldl_skip _ _ hns]
        rfl
  refine ⟨hmain, ?_⟩
  rw [hmain]
  simpa using hmain

/-- Witness for claim C6 at a concrete input: the query tokens hi and by
both have length two, and the text hello comes back unchanged. -/
theorem highlight_short_tokens_identity_witness :
    (("hello" : String) = "" ∨
      ∀ t ∈ splitWs (toLowerL ("hi by" : String).toList), t.length ≤ 2) ∧
    highlight_query_terms ("hello") ("hi by") = some ("hello") := by
  have h : (("hello" : String) = "" ∨
      ∀ t ∈ splitWs (toLowerL ("hi by" : String).toList), t.length ≤ 2) :=
    Or.inr (by decide)
  exact ⟨h, (highlight_short_tokens_identity ("hello") ("hi by") h).1⟩

/-! ## Helper lemmas for the session-state model -/

theorem maxAbs_singleton (x : ℤ) : maxAbs [x] = wrapAbs16 x := rfl

theorem maxAbs_cons_cons (x y : ℤ) (l : List ℤ) :
    maxAbs (x :: y :: l) = max (wrapAbs16 x) (maxAbs (y :: l)) := rfl

theorem wrapAbs16_eq_abs {x : ℤ} (h : x ≠ -32768) : wrapAbs16 x = |x| :=
  if_neg h

theorem mem_wrapAbs_le_maxAbs {x : ℤ} {l : List ℤ} (h : x ∈ l) :
    wrapAbs16 x ≤ maxAbs l := by
  induction l with
  | nil => cases h
  | cons a as ih =>
    cases as with
    | nil =>
      have hx : x = a := by simpa using h
      rw [hx, maxAbs_singleton]
    | cons b bs =>
      rw [maxAbs_cons_cons]
      rcases List.mem_cons.mp h with h | h
      · rw [h]
        exact le_max_left _ _
      · exact le_trans (ih h) (le_max_right _ _)

theorem maxAbs_all_zero {l : List ℤ} (h : ∀ x ∈ l, x = 0) : maxAbs l = 0 := by
  induction l with
  | nil => rfl
  | cons a as ih =>
    have ha : a = 0 := h a (by simp)
    cases as with
    | nil =>
      rw [maxAbs_singleton, ha]
      simp [wrapAbs16]
    | cons b bs =>
      rw [maxAbs_cons_cons, ha, ih (fun x hx => h x (by simp [hx]))]
      simp [wrapAbs16]

theorem save_audio_mem (fs : List String) (tmp : String) (audio : List ℤ) :
    tmp ∈ (save_audio fs tmp audio).2.1 := by
  simp only [save_audio]
  by_cases h : tmp ∈ fs
  · simp [h]
  · simp [h]

theorem perform_search_state (extS : Except String (List Hit)) (q : String)
    (s : SessionState) :
    (perform_search extS q s).1
      = { s with search_results := some (ai_search extS q s.top_k).1 } := by
  simp only [perform_search]
  split <;> rfl

/-! ## Claim C1: temporary-file cleanup in transcribe_audio -/

/-- Claim C1, counterexample to the claim as stated: when the external
transcription call raises, `os.unlink` (placed inside the `try`, after the
call) is never executed, so the temporary file is still present
afterwards. -/
theorem transcribe_error_leaves_file :
    (transcribe_audio ["t.wav"] ("t.wav") (Except.error ("boom"))).2.1 = ["t.wav"] ∧
    ("t.wav" ∈ (transcribe_audio ["t.wav"] ("t.wav") (Except.error ("boom"))).2.1) :=
  ⟨by decide, by decide⟩

/-- Claim C1 (amended): `transcribe_audio` deletes the temporary file only
on the success path — after a successful external call the file is
unlinked and the text returned; when the call raises, the handler shows
the error and returns the no-transcript outcome with the filesystem
unchanged, leaving the file behind. -/
theorem transcribe_audio_cleanup (fs : List String) (p t e : String) :
    (p ∈ fs → transcribe_audio fs p (Except.ok t) = (some t, fs.erase p, [])) ∧
    (transcribe_audio fs p (Except.error e)).2.1 = fs := by
  constructor
  · intro hp
    simp [transcribe_audio, hp]
  · by_cases hp : p ∈ fs
    · simp [transcribe_audio, hp]
    · simp [transcribe_audio, hp]

/-- Witness for claim C1 at a concrete input: a present file is deleted by
a successful transcription. -/
theorem transcribe_audio_cleanup_witness :
    (("a.wav" : String) ∈ (["a.wav"] : List String)) ∧
    transcribe_audio ["a.wav"] ("a.wav") (Except.ok ("hi"))
      = (some ("hi"), (["a.wav"] : List String).erase ("a.wav"), []) :=
  ⟨by decide, (transcribe_audio_cleanup ["a.wav"] ("a.wav") ("hi") ("x")).1 (by decide)⟩

/-! ## Claim C2: failure outcome versus empty transcript in process_audio -/

/-- Claim C2, counterexample to the claim as stated: with audio present
and a transcription that succeeds with the empty string, `process_audio`
takes the failure branch (`if result:` is false for an empty Python
string): the only event is the failed-to-transcribe error, no search is
issued, and the empty transcript is not stored. -/
theorem process_audio_empty_transcript_fails :
    (process_audio (Except.ok ("")) (Except.ok []) ("t.wav") [] sampleState).2.2
      = [Event.errorMsg ("Failed to transcribe audio. Please try again.")] ∧
    (process_audio (Except.ok ("")) (Except.ok []) ("t.wav") [] sampleState).1.transcript
      = "" :=
  ⟨by decide, by decide⟩

/-- Claim C2 (amended): transcription failure surfaces as the distinct
no-transcript outcome (`none`, versus `some ""`), but `process_audio`
routes both that failure outcome and an empty-but-successful transcript
to the failure branch; only a non-empty successful transcript is stored
and triggers a search (with the session's `top_k`). -/
theorem process_audio_truthiness (s : SessionState) (buf : List ℤ) (fs : List String)
    (tmp : String) (extS : Except String (List Hit)) (h : s.audio_data = some buf) :
    (∀ t : String, t ≠ "" →
      (process_audio (Except.ok t) extS tmp fs s).1.transcript = t ∧
      Event.searchCall t s.top_k ∈ (process_audio (Except.ok t) extS tmp fs s).2.2) ∧
    ((process_audio (Except.ok ("")) extS tmp fs s).1.transcript = s.transcript ∧
      Event.errorMsg ("Failed to transcribe audio. Please try again.")
        ∈ (process_audio (Except.ok ("")) extS tmp fs s).2.2 ∧
      ∀ q k, Event.searchCall q k ∉ (process_audio (Except.ok ("")) extS tmp fs s).2.2) ∧
    (∀ e, Event.errorMsg ("Failed to transcribe audio. Please try again.")
        ∈ (process_audio (Except.error e) extS tmp fs s).2.2 ∧
      ∀ q k, Event.searchCall q k ∉ (process_audio (Except.error e) extS tmp fs s).2.2) := by
  have hmem : tmp ∈ (if tmp ∈ fs then fs else tmp :: fs) := by
    by_cases hfs : tmp ∈ fs
    · simp [hfs]
    · simp [hfs]
  refine ⟨?_, ⟨?_, ?_, ?_⟩, ?_⟩
  · intro t ht
    constructor
    · by_cases hts : s.toast_shown <;>
        simp [process_audio, h, save_audio, transcribe_audio, hmem, ht, hts,
              perform_search_state]
    · cases extS with
      | ok hits =>
        by_cases hh : hits = [] <;> by_cases hts : s.toast_shown <;>
          simp [process_audio, h, save_audio, transcribe_audio, hmem, ht, hts,
                perform_search, ai_search, hh]
      | error e =>
        by_cases hts : s.toast_shown <;>
          simp [process_audio, h, save_audio, transcribe_audio, hmem, ht, hts,
                perform_search, ai_search]
  · simp [process_audio, h, save_audio, transcribe_audio, hmem]
  · simp [process_audio, h, save_audio, transcribe_audio, hmem]
  · intro q k
    simp [process_audio, h, save_audio, transcribe_audio, hmem]
  · intro e
    refine ⟨?_, ?_⟩ <;> simp [process_audio, h, save_audio, transcribe_audio, hmem]

/-- Witness for claim C2 at a concrete input: a non-empty transcript cat
is stored by the success branch. -/
theorem process_audio_truthiness_witness :
    (sampleState.audio_data = some [1]) ∧ (("cat" : String) ≠ "") ∧
    (process_audio (Except.ok ("cat")) (Except.ok []) ("t.wav") [] sampleState).1.transcript
      = "cat" := by
  have h : sampleState.audio_data = some [1] := rfl
  have ht : ("cat" : String) ≠ "" := by decide
  exact ⟨h, ht,
    ((process_audio_truthiness sampleState [1] [] ("t.wav") (Except.ok []) h).1 ("cat") ht).1⟩

/-! ## Claim C3: ai_search pass-through and error handling -/

/-- Claim C3: for every query and top_k, a successful external call makes
`ai_search` return exactly the delivered hit sequence (no re-sorting or
truncation) after issuing exactly one search call; an exception makes it
return the empty sequence and surface an inline error indicator. -/
theorem ai_search_passthrough (q : String) (k : Nat) (hits : List Hit) (e : String) :
    ai_search (Except.ok hits) q k = (hits, [Event.searchCall q k]) ∧
    ai_search (Except.error e) q k
      = ([], [Event.searchCall q k, Event.errorMsg ("Search error: " ++ e)]) :=
  ⟨rfl, rfl⟩

/-! ## Claim C7: amplitude normalization in save_audio -/

/-- Claim C7, counterexample to the claim as stated: the buffer
`[-32768, 100]` is non-silent, but `np.abs` wraps `-32768` to `-32768`,
so the computed peak is 100 and the written first sample is
`-32768/100*0.9 = -294.912`, whose absolute value far exceeds 0.9; and
the non-silent buffer `[-32768]` has wrapped peak `-32768`, fails the
`> 0` check, and is written unmodified at full scale. -/
theorem save_audio_wraparound_exceeds :
    0 < maxAbs [-32768, 100] ∧
    ((-32768 : ℚ) / 100 * (9 / 10)) ∈ save_audio_data [-32768, 100] ∧
    ¬ |(-32768 : ℚ) / 100 * (9 / 10)| ≤ 9 / 10 ∧
    save_audio_data [-32768] = [((-32768 : ℤ) : ℚ)] := by
  refine ⟨by decide, ?_, ?_, ?_⟩
  · norm_num [save_audio_data, maxAbs, wrapAbs16]
  · have hval : ((-32768 : ℚ) / 100 * (9 / 10)) = -(36864 / 125) := by norm_num
    rw [hval, abs_neg, abs_of_pos (by norm_num : (0 : ℚ) < 36864 / 125)]
    norm_num
  · norm_num [save_audio_data, maxAbs, wrapAbs16]

/-- Claim C7 (amended): `save_audio` leaves a silent (all-zero) buffer
unmodified, and the division is performed only when the wrapped peak
`np.max(np.abs(audio))` is strictly positive — so never with a zero
divisor; for buffers free of the int16 minimum `-32768` (on which
`np.abs` does not wrap), normalization keeps every written sample's
absolute value at most 0.9. A buffer containing `-32768` can instead be
divided by a wrapped, too-small peak and exceed 0.9, or skip
normalization entirely. -/
theorem save_audio_normalization (fs : List String) (name : String) (audio : List ℤ) :
    ((∀ x ∈ audio, x = 0) →
      (save_audio fs name audio).2.2 = audio.map (fun x : ℤ => (x : ℚ))) ∧
    (¬ 0 < maxAbs audio →
      (save_audio fs name audio).2.2 = audio.map (fun x : ℤ => (x : ℚ))) ∧
    ((∀ x ∈ audio, -32768 < x) → 0 < maxAbs audio →
      ∀ y ∈ (save_audio fs name audio).2.2, |y| ≤ 9 / 10) := by
  refine ⟨?_, ?_, ?_⟩
  · intro h0
    have hz : maxAbs audio = 0 := maxAbs_all_zero h0
    simp [save_audio, save_audio_data, hz]
  · intro hneg
    simp [save_audio, save_audio_data, hneg]
  · intro hfree hpos y hy
    have hy' : y ∈ save_audio_data audio := hy
    unfold save_audio_data at hy'
    rw [if_pos hpos] at hy'
    obtain ⟨x, hx, rfl⟩ := List.mem_map.mp hy'
    have hxle : |x| ≤ maxAbs audio := by
      rw [← wrapAbs16_eq_abs (ne_of_gt (hfree x hx))]
      exact mem_wrapAbs_le_maxAbs hx
    have hM : (0 : ℚ) < ((maxAbs audio : ℤ) : ℚ) := by exact_mod_cast hpos
    have h1 : |(x : ℚ) / ((maxAbs audio : ℤ) : ℚ)| ≤ 1 := by
      rw [abs_div, abs_of_pos hM, div_le_one hM]
      exact_mod_cast hxle
    calc |(x : ℚ) / ((maxAbs audio : ℤ) : ℚ) * (9 / 10)|
        = |(x : ℚ) / ((maxAbs audio : ℤ) : ℚ)| * |(9 / 10 : ℚ)| := abs_mul _ _
      _ = |(x : ℚ) / ((maxAbs audio : ℤ) : ℚ)| * (9 / 10) := by norm_num
      _ ≤ 1 * (9 / 10) := mul_le_mul_of_nonneg_right h1 (by norm_num)
      _ = 9 / 10 := one_mul _

/-- Witness for claim C7 at a concrete non-silent, wraparound-free
buffer. -/
theorem save_audio_normalization_witness :
    (∀ x ∈ ([3, -5] : List ℤ), -32768 < x) ∧ 0 < maxAbs [3, -5] ∧
    ∀ y ∈ (save_audio [] ("t.wav") [3, -5]).2.2, |y| ≤ 9 / 10 :=
  ⟨by decide, by decide,
    (save_audio_normalization [] ("t.wav") [3, -5]).2.2 (by decide) (by decide)⟩

/-! ## Claim C8: top-K change re-triggers the search -/

/-- Claim C8: when the top-K slider moves to a different value while the
stored transcript is non-empty, the setting is updated and a search is
immediately issued with the existing transcript and the new count; with an
empty transcript only the setting is updated and no search call occurs. -/
theorem top_k_change_triggers_search (s : SessionState) (newK : Nat)
    (extS : Except String (List Hit)) (h : newK ≠ s.top_k) :
    (s.transcript ≠ "" →
      (top_k_slider_update extS newK s).1.top_k = newK ∧
      Event.searchCall s.transcript newK ∈ (top_k_slider_update extS newK s).2) ∧
    (s.transcript = "" →
      (top_k_slider_update extS newK s).1 = { s with top_k := newK } ∧
      ∀ q k, Event.searchCall q k ∉ (top_k_slider_update extS newK s).2) := by
  constructor
  · intro htr
    constructor
    · simp [top_k_slider_update, h, htr, perform_search_state]
    · cases extS with
      | ok hits =>
        by_cases hh : hits = [] <;>
          simp [top_k_slider_update, h, htr, perform_search, ai_search, hh]
      | error e =>
        simp [top_k_slider_update, h, htr, perform_search, ai_search]
  · intro htr
    refine ⟨?_, ?_⟩ <;> simp [top_k_slider_update, h, htr]

/-- Witness for claim C8 at a concrete input: with the default empty
transcript, moving the slider from 10 to 5 updates only the setting. -/
theorem top_k_change_triggers_search_witness :
    ((5 : Nat) ≠ sampleState.top_k) ∧
    (top_k_slider_update (Except.ok []) 5 sampleState).1
      = { sampleState with top_k := 5 } := by
  have h : (5 : Nat) ≠ sampleState.top_k := by decide
  exact ⟨h, ((top_k_change_triggers_search sampleState 5 (Except.ok []) h).2 rfl).1⟩

/-! ## Claim C9: empty query handling -/

/-- Claim C9, counterexample to the claim as stated: an empty query is not
rejected — the external service is invoked with it — and when that call
raises, an inline error is surfaced, so an empty query can produce an
error state. -/
theorem empty_query_error_state :
    (perform_search (Except.error ("boom")) ("") sampleState).2
      = [Event.searchCall ("") 10, Event.errorMsg ("Search error: boom"),
         Event.toast ("No results found. Try a different query.")] := by decide

/-- Claim C9 (amended): an empty query is passed to the external search
service like any other query; if the call succeeds with zero hits the
empty result set is stored and the no-results message shown with no error
indicator, but if the call raises, an error indicator is surfaced. -/
theorem perform_search_empty_query (s : SessionState) :
    (perform_search (Except.ok []) ("") s).1.search_results = some [] ∧
    (perform_search (Except.ok []) ("") s).2
      = [Event.searchCall ("") s.top_k,
         Event.toast ("No results found. Try a different query.")] ∧
    ∀ e, Event.errorMsg ("Search error: " ++ e)
        ∈ (perform_search (Except.error e) ("") s).2 := by
  refine ⟨?_, ?_, ?_⟩ <;> simp [perform_search, ai_search]

/-! ## Claim C10: record_audio frame -/

/-- Claim C10: starting a new recording clears the transcript to the empty
string, clears the search-result set to none, resets the toast-shown flag,
and leaves the recording-duration and top-K settings unchanged. -/
theorem record_audio_resets (s : SessionState) (buf : List ℤ) :
    (record_audio buf s).transcript = "" ∧
    (record_audio buf s).search_results = none ∧
    (record_audio buf s).toast_shown = false ∧
    (record_audio buf s).record_duration = s.record_duration ∧
    (record_audio buf s).top_k = s.top_k :=
  ⟨rfl, rfl, rfl, rfl, rfl⟩

end VoiceRag
